import Mathlib

/-!
Shallow embedding of the peter-video-agent repository: the script parser
(src/App.tsx, parseScriptText), the app-state edit handler
(src/App.tsx, handleUpdateScriptLine), and the audio service
(src/unnamed/part_000: generateScript, generateAudioWithElevenLabs,
concatenateAudioBuffers; src/services/aiService.ts: concatenateAudioBuffers).
Byte buffers (ArrayBuffer) are modelled as lists of naturals, strings as
Lean strings processed through their character lists, and network calls as
explicit oracle functions.  Each synthesizer run additionally records the
list of synthesis requests it issues, and the bytes behind the object URL
it creates, so that request-counting and buffer-content properties can be
stated.
-/

/-- Character class of the JavaScript regex class for whitespace and of
String.prototype.trim (the ASCII members plus the common Unicode ones). -/
def isJsWs (c : Char) : Bool :=
  c = ' ' || c = '\t' || c = '\n' || c = '\r' || c = '\x0b' || c = '\x0c' ||
  c = '\u00A0' || c = '\u2028' || c = '\u2029' || c = '\uFEFF'

/-- Line-terminator characters, which the JavaScript dot metacharacter does
not match. -/
def isLineTerm (c : Char) : Bool :=
  c = '\n' || c = '\r' || c = '\u2028' || c = '\u2029'

/-- Character class [A-Za-z0-9] of the speaker regex. -/
def isAlnumAscii (c : Char) : Bool :=
  ('A' ≤ c && c ≤ 'Z') || ('a' ≤ c && c ≤ 'z') || ('0' ≤ c && c ≤ '9')

/-- Model of String.prototype.trim on a character list. -/
def jsTrimL (cs : List Char) : List Char :=
  ((cs.dropWhile isJsWs).reverse.dropWhile isJsWs).reverse

/-- Model of String.prototype.trim. -/
def jsTrim (s : String) : String := String.mk (jsTrimL s.toList)

/-- Model of String.prototype.split with separator a newline character. -/
def splitNl : List Char → List (List Char)
  | [] => [[]]
  | c :: cs =>
    if c = '\n' then [] :: splitNl cs
    else
      match splitNl cs with
      | [] => [[c]]
      | l :: ls => (c :: l) :: ls

/-- ScriptLine record from src/types.ts. -/
structure ScriptLine where
  speaker : String
  text : String
deriving DecidableEq, Repr

/-- Case-insensitive character comparison, as under the regex i flag. -/
def ciEq (a b : Char) : Bool := a.toLower = b.toLower

/-- Match a literal pattern case-insensitively at the front of a character
list, returning the matched characters as they occur in the input together
with the remainder. -/
def matchLitCI : List Char → List Char → Option (List Char × List Char)
  | [], cs => some ([], cs)
  | _ :: _, [] => none
  | p :: ps, c :: cs =>
    if ciEq p c then
      match matchLitCI ps cs with
      | none => none
      | some (m, r) => some (c :: m, r)
    else none

/-- Model of matching one line (which contains no newline) against the
regex anchored at both ends that the parser uses: the literal word Person
(case-insensitive), a space, one or more ASCII alphanumerics, a colon, a
run of whitespace, then the captured remainder, which the dot cannot let
contain a line terminator.  Returns the first capture group (the speaker
label as written) and the second capture group (the remainder after the
greedy whitespace run). -/
def matchSpeakerLine (line : List Char) : Option (List Char × List Char) :=
  match matchLitCI ("Person ".toList) line with
  | none => none
  | some (m, rest) =>
    let run := rest.takeWhile isAlnumAscii
    match rest.dropWhile isAlnumAscii with
    | ':' :: rest2 =>
      if run = [] then none
      else
        let g2 := rest2.dropWhile isJsWs
        if g2.any isLineTerm then none
        else some (m ++ run, g2)
    | _ => none

/-- Non-blank lines of the raw text: split on newlines, keep lines whose
trimmed form is non-empty (the filter step of parseScriptText). -/
def nonblankLines (text : String) : List (List Char) :=
  (splitNl text.toList).filter (fun l => !(jsTrimL l).isEmpty)

/-- Build one ScriptLine from a line when the speaker regex matches: the
speaker is capture group one and the text is capture group two trimmed. -/
def parseOne (l : List Char) : Option ScriptLine :=
  (matchSpeakerLine l).map (fun p => ⟨String.mk p.1, String.mk (jsTrimL p.2)⟩)

/-- Model of parseScriptText from src/App.tsx: split the raw text on
newlines, drop blank lines, and keep the lines matching the speaker regex
as ScriptLine values in input order. -/
def parseScriptText (text : String) : List ScriptLine :=
  (nonblankLines text).filterMap parseOne

/-- AudioGenerationDetails record from src/types.ts. -/
structure AudioGenerationDetails where
  url : String
  statusMessage : String
deriving DecidableEq, Repr

/-- One issued text-to-speech request: the utterance sent and the voice
identifier addressed. -/
structure SynthRequest where
  text : String
  voiceId : String
deriving DecidableEq, Repr

/-- Byte buffers are lists of naturals. -/
abbrev AudioBuffer := List Nat

def VOICE_ID_PERSON_A : String := "WAhoMTNdLdMoq1j3wf3I"

def VOICE_ID_PERSON_B : String := "KH1SQLVulwP6uG4O3nmT"

def PLACEHOLDER_AUDIO_URL : String :=
  "https://interactive-examples.mdn.mozilla.net/media/cc0-audio/t-rex-roar.mp3"

/-- Does the needle occur at the front of the haystack (model of
String.prototype.startsWith on character lists). -/
def startsWithL : List Char → List Char → Bool
  | _, [] => true
  | [], _ :: _ => false
  | c :: cs, n :: ns => c = n && startsWithL cs ns

/-- Does the needle occur anywhere in the haystack (model of
String.prototype.includes on character lists). -/
def containsL : List Char → List Char → Bool
  | [], needle => needle.isEmpty
  | c :: cs, needle => startsWithL (c :: cs) needle || containsL cs needle

/-- Model of String.prototype.toLowerCase restricted to the per-character
lowering Lean provides. -/
def jsLower (s : String) : List Char := s.toList.map Char.toLower

/-- Voice selection of generateAudioWithElevenLabs: the Person A voice when
the lowercased speaker label contains the marker for person a or the
marker for a colon-suffixed a, otherwise the Person B voice. -/
def voiceIdFor (speaker : String) : String :=
  if containsL (jsLower speaker) ("person a".toList)
      || containsL (jsLower speaker) (" a:".toList) then
    VOICE_ID_PERSON_A
  else
    VOICE_ID_PERSON_B

/-- The per-line fetch loop of generateAudioWithElevenLabs: walk the lines
in order, skip a line whose trimmed text is empty, otherwise issue one
synthesis request for the line; a failed request stops the walk at once.
Returns the requests issued, and either the fetched buffers in line order
or the error of the failing request. -/
def runSegments (fetch : String → String → Except String AudioBuffer) :
    List ScriptLine → List SynthRequest × Except String (List AudioBuffer)
  | [] => ([], .ok [])
  | line :: rest =>
    if jsTrimL line.text.toList = [] then runSegments fetch rest
    else
      match fetch line.text (voiceIdFor line.speaker) with
      | .error e => ([⟨line.text, voiceIdFor line.speaker⟩], .error e)
      | .ok buf =>
        let tail := runSegments fetch rest
        (⟨line.text, voiceIdFor line.speaker⟩ :: tail.1,
          match tail.2 with
          | .error e => .error e
          | .ok bufs => .ok (buf :: bufs))

/-- Byte-array write of a source buffer into a destination at an offset, as
performed by the set method of a typed-array view. -/
def writeBytesAt (dst src : List Nat) (off : Nat) : List Nat :=
  dst.take off ++ src ++ dst.drop (off + src.length)

/-- Model of concatenateAudioBuffers from src/unnamed/part_000: allocate a
zero-filled byte array of the summed length, then copy each buffer in turn
at the running offset and return the underlying buffer. -/
def concatenateAudioBuffers (buffers : List AudioBuffer) : AudioBuffer :=
  let totalLength := buffers.foldl (fun sum b => sum + b.length) 0
  (buffers.foldl (fun acc b => (writeBytesAt acc.1 b acc.2, acc.2 + b.length))
    (List.replicate totalLength 0, 0)).1

namespace AiServiceTs

/-- Model of concatenateAudioBuffers from src/services/aiService.ts:
allocate a zero-filled ArrayBuffer of the summed length, copy each buffer
in turn at the running offset through a typed-array view, and return the
ArrayBuffer. -/
def concatenateAudioBuffers (buffers : List AudioBuffer) : AudioBuffer :=
  let totalLength := buffers.foldl (fun sum b => sum + b.length) 0
  (buffers.foldl (fun acc b => (writeBytesAt acc.1 b acc.2, acc.2 + b.length))
    (List.replicate totalLength 0, 0)).1

end AiServiceTs

def simulatedMessage : String :=
  "Audio generation simulated (API key missing). Placeholder audio provided."

def noScriptMessage : String := "No script lines to generate audio from."

def noAudioMessage : String :=
  "No audio generated as all script lines were empty or resulted in no audio."

def successMessage (n : Nat) : String :=
  "Audio successfully generated with " ++ toString n ++
    " segments using multiple voices."

def failureMessage (e : String) : String :=
  "Multi-voice audio generation failed: " ++ e ++ ". Placeholder audio provided."

/-- Result of one synthesizer run: the returned AudioGenerationDetails, the
synthesis requests issued during the run, and the bytes behind the object
URL created for the concatenated audio, when one was created. -/
structure SynthOutcome where
  details : AudioGenerationDetails
  requests : List SynthRequest
  audioBytes : Option AudioBuffer
deriving DecidableEq, Repr

/-- Model of generateAudioWithElevenLabs from src/unnamed/part_000.  The
ElevenLabs credential is an optional string; mkUrl models creating an
object URL for a blob of bytes; fetch models the per-request ElevenLabs
call, taking the utterance and the voice identifier.  With no credential
the fixed placeholder is returned at once with no request; with an empty
line list a result with an empty URL is returned; otherwise the lines are
fetched sequentially, a mid-run failure yields the placeholder with the
causing error in the status and discards the fetched buffers, an all-lines-
skipped run yields an empty URL with the no-audio status, and a successful
run concatenates the buffers in order behind a fresh object URL. -/
def generateAudioWithElevenLabs (elevenKey : Option String)
    (mkUrl : AudioBuffer → String)
    (fetch : String → String → Except String AudioBuffer)
    (scriptLines : List ScriptLine) : SynthOutcome :=
  match elevenKey with
  | none => ⟨⟨PLACEHOLDER_AUDIO_URL, simulatedMessage⟩, [], none⟩
  | some _ =>
    if scriptLines.length = 0 then ⟨⟨"", noScriptMessage⟩, [], none⟩
    else
      let run := runSegments fetch scriptLines
      match run.2 with
      | .error e => ⟨⟨PLACEHOLDER_AUDIO_URL, failureMessage e⟩, run.1, none⟩
      | .ok segs =>
        if segs.length = 0 then ⟨⟨"", noAudioMessage⟩, run.1, none⟩
        else
          let buf := concatenateAudioBuffers segs
          ⟨⟨mkUrl buf, successMessage segs.length⟩, run.1, some buf⟩

def geminiMissingMessage : String :=
  "Gemini API Key is not configured. Cannot connect to AI services."

def emptyScriptMessage : String :=
  "AI failed to generate a script. The response was empty."

def invalidKeyMessage : String :=
  "The provided Gemini API Key is not valid. Please check your configuration."

/-- Model of generateScript from src/unnamed/part_000.  The Gemini
credential is an optional string; api models the generate-content network
call on the topic, returning the optional response text or an error
message.  The Bool in the result records whether the network call was
made.  A missing credential fails before the call; an errored call is
re-thrown, special-casing invalid-key messages; an absent, empty or
whitespace-only response text fails with the empty-response message;
otherwise the text is returned. -/
def generateScript (geminiKey : Option String) (topic : String)
    (api : String → Except String (Option String)) :
    Except String String × Bool :=
  match geminiKey with
  | none => (.error geminiMissingMessage, false)
  | some _ =>
    match api topic with
    | .error e =>
      (.error (if containsL e.toList ("API key not valid".toList) then
          invalidKeyMessage
        else e), true)
    | .ok none => (.error emptyScriptMessage, true)
    | .ok (some t) =>
      if jsTrimL t.toList = [] then (.error emptyScriptMessage, true)
      else (.ok t, true)

/-- The slice of App component state from src/App.tsx that the edit
handler touches. -/
structure AppState where
  scriptLines : List ScriptLine
  audioUrl : String
  audioStatusMessage : String
  isScriptDirty : Bool
deriving DecidableEq, Repr

def editedMessage : String := "Script edited. Please regenerate audio."

/-- The functional updater passed to setScriptLines by
handleUpdateScriptLine: copy the list; when the index is in bounds replace
that entry, keeping the old speaker when the new one is absent or empty;
out-of-bounds indices (negative included) leave the list as copied. -/
def updateLineAt (lines : List ScriptLine) (index : Int) (newText : String)
    (newSpeaker : Option String) : List ScriptLine :=
  if h : 0 ≤ index ∧ index.toNat < lines.length then
    let old := lines.get ⟨index.toNat, h.2⟩
    lines.set index.toNat
      ⟨match newSpeaker with
        | some sp => if sp = "" then old.speaker else sp
        | none => old.speaker,
        newText⟩
  else lines

/-- Model of handleUpdateScriptLine from src/App.tsx: update the line list
through updateLineAt, set the dirty flag, clear the audio URL and set the
edited status message. -/
def handleUpdateScriptLine (s : AppState) (index : Int) (newText : String)
    (newSpeaker : Option String) : AppState :=
  { scriptLines := updateLineAt s.scriptLines index newText newSpeaker,
    audioUrl := "",
    audioStatusMessage := editedMessage,
    isScriptDirty := true }

/-- Dropping while a predicate holds is idempotent. -/
theorem dropWhile_self (p : Char → Bool) (l : List Char) :
    (l.dropWhile p).dropWhile p = l.dropWhile p := by
  induction l with
  | nil => rfl
  | cons c cs ih =>
    by_cases h : p c
    · simp [List.dropWhile_cons, h, ih]
    · simp [List.dropWhile_cons, h]

/-- A list with no leading character satisfying p keeps that property after
trimming from its right end. -/
theorem dropWhile_reverse_stable (p : Char → Bool) (l : List Char)
    (hl : l.dropWhile p = l) :
    ((l.reverse.dropWhile p).reverse).dropWhile p
      = (l.reverse.dropWhile p).reverse := by
  obtain ⟨u, hu⟩ : ∃ u, u ++ l.reverse.dropWhile p = l.reverse :=
    List.dropWhile_suffix p
  have hshape : l = (l.reverse.dropWhile p).reverse ++ u.reverse := by
    have h2 := congrArg List.reverse hu
    simpa using h2.symm
  cases hbrev : (l.reverse.dropWhile p).reverse with
  | nil => simp
  | cons d bs =>
    have hpd : p d = false := by
      by_contra hpd
      have hpd' : p d = true := by
        cases hval : p d
        · exact absurd hval hpd
        · rfl
      rw [hshape, hbrev, List.cons_append, List.dropWhile_cons, if_pos hpd']
        at hl
      have hle := (List.dropWhile_suffix p
        (l := bs ++ u.reverse)).length_le
      have hlen := congrArg List.length hl
      simp only [List.length_cons] at hlen
      omega
    rw [List.dropWhile_cons, if_neg (by simp [hpd])]

/-- The trim model is idempotent. -/
theorem jsTrimL_idem (cs : List Char) : jsTrimL (jsTrimL cs) = jsTrimL cs := by
  unfold jsTrimL
  have h1 := dropWhile_reverse_stable isJsWs (cs.dropWhile isJsWs)
    (dropWhile_self isJsWs cs)
  rw [h1, List.reverse_reverse, dropWhile_self]

/-- When every element maps to some value, filterMap is the map of the
defaulted extraction. -/
theorem filterMap_eq_map_getD {α β : Type} (f : α → Option β) (d : β) :
    ∀ l : List α, (∀ a ∈ l, (f a).isSome) →
      l.filterMap f = l.map (fun a => (f a).getD d) := by
  intro l
  induction l with
  | nil => intro _; rfl
  | cons x xs ih =>
    intro h
    obtain ⟨y, hy⟩ := Option.isSome_iff_exists.mp (h x (List.mem_cons_self x xs))
    rw [List.filterMap_cons, hy, List.map_cons, hy,
      ih (fun a ha => h a (List.mem_cons_of_mem x ha))]
    rfl

/-- When every request that the loop issues succeeds, the loop issues one
request per non-blank line, in order, and collects their buffers in order. -/
theorem runSegments_ok_filter (fetch : String → String → Except String AudioBuffer)
    (bufOf : ScriptLine → AudioBuffer) :
    ∀ lines : List ScriptLine,
      (∀ l ∈ lines, jsTrimL l.text.toList ≠ [] →
        fetch l.text (voiceIdFor l.speaker) = .ok (bufOf l)) →
      runSegments fetch lines =
        ((lines.filter fun l => !(jsTrimL l.text.toList).isEmpty).map
            (fun l => ⟨l.text, voiceIdFor l.speaker⟩),
          .ok ((lines.filter fun l => !(jsTrimL l.text.toList).isEmpty).map bufOf)) := by
  intro lines
  induction lines with
  | nil => intro _; rfl
  | cons x xs ih =>
    intro h
    have ihx := ih (fun l hl => h l (List.mem_cons_of_mem x hl))
    by_cases hx : jsTrimL x.text.toList = []
    · rw [runSegments, if_pos hx, ihx,
        List.filter_cons_of_neg (by simpa using hx)]
    · rw [runSegments, if_neg hx, h x (List.mem_cons_self x xs) hx, ihx,
        List.filter_cons_of_pos (by simpa using hx)]
      rfl

/-- When the request for a non-blank line fails and every earlier request
succeeds, the loop stops at that line: it issues the requests for the
earlier non-blank lines, then that one, nothing for the later lines, and
reports the error. -/
theorem runSegments_fails (fetch : String → String → Except String AudioBuffer)
    (bufOf : ScriptLine → AudioBuffer) (bad : ScriptLine) (e : String)
    (post : List ScriptLine) :
    ∀ pre : List ScriptLine,
      (∀ l ∈ pre, jsTrimL l.text.toList ≠ [] →
        fetch l.text (voiceIdFor l.speaker) = .ok (bufOf l)) →
      jsTrimL bad.text.toList ≠ [] →
      fetch bad.text (voiceIdFor bad.speaker) = .error e →
      runSegments fetch (pre ++ bad :: post) =
        ((pre.filter fun l => !(jsTrimL l.text.toList).isEmpty).map
            (fun l => ⟨l.text, voiceIdFor l.speaker⟩)
          ++ [⟨bad.text, voiceIdFor bad.speaker⟩],
          .error e) := by
  intro pre
  induction pre with
  | nil =>
    intro _ hbadnb hbad
    rw [List.nil_append, runSegments, if_neg hbadnb, hbad]
    rfl
  | cons x xs ih =>
    intro h hbadnb hbad
    have ihx := ih (fun l hl => h l (List.mem_cons_of_mem x hl)) hbadnb hbad
    by_cases hx : jsTrimL x.text.toList = []
    · rw [List.cons_append, runSegments, if_pos hx, ihx,
        List.filter_cons_of_neg (by simpa using hx)]
    · rw [List.cons_append, runSegments, if_neg hx,
        h x (List.mem_cons_self x xs) hx, ihx,
        List.filter_cons_of_pos (by simpa using hx)]
      rfl

/-- Summed byte length of a list of buffers. -/
def sumLens (bufs : List AudioBuffer) : Nat := (bufs.map List.length).sum

/-- The length-summing fold of the concatenation functions computes the
summed byte length. -/
theorem foldl_add_length (bufs : List AudioBuffer) :
    ∀ n : Nat, bufs.foldl (fun sum b => sum + b.length) n = n + sumLens bufs := by
  induction bufs with
  | nil => intro n; simp [sumLens]
  | cons b bs ih =>
    intro n
    rw [List.foldl_cons, ih]
    simp [sumLens]
    omega

/-- Invariant of the copy loop of the concatenation functions: copying the
buffers one after another into a destination that starts with already
written bytes followed by enough zero padding produces the written bytes,
the flattened buffers, and the leftover padding. -/
theorem concat_fold :
    ∀ (bufs : List AudioBuffer) (pre : List Nat) (k : Nat),
      (bufs.foldl (fun acc b => (writeBytesAt acc.1 b acc.2, acc.2 + b.length))
          (pre ++ List.replicate (sumLens bufs + k) 0, pre.length)).1
        = pre ++ bufs.flatten ++ List.replicate k 0 := by
  intro bufs
  induction bufs with
  | nil => intro pre k; simp [sumLens]
  | cons b bs ih =>
    intro pre k
    have hsplit : sumLens (b :: bs) + k = b.length + (sumLens bs + k) := by
      simp [sumLens]; omega
    have hw : writeBytesAt (pre ++ List.replicate (sumLens (b :: bs) + k) 0)
        b pre.length
        = (pre ++ b) ++ List.replicate (sumLens bs + k) 0 := by
      unfold writeBytesAt
      rw [List.take_left]
      have hd : (pre ++ List.replicate (sumLens (b :: bs) + k) 0).drop
          (pre.length + b.length) = List.replicate (sumLens bs + k) 0 := by
        rw [hsplit, List.replicate_add, ← List.append_assoc]
        exact List.drop_left' (by simp)
      rw [hd, List.append_assoc]
    rw [List.foldl_cons, hw]
    have hlen : pre.length + b.length = (pre ++ b).length := by simp
    rw [hlen, ih (pre ++ b) k, List.flatten_cons]
    simp

/-- Both concatenation models return the in-order flattening of the input
buffers. -/
theorem concatenateAudioBuffers_eq_flatten (bufs : List AudioBuffer) :
    concatenateAudioBuffers bufs = bufs.flatten := by
  have h := concat_fold bufs [] 0
  simp only [List.nil_append, List.length_nil, Nat.add_zero,
    List.replicate_zero, List.append_nil] at h
  unfold concatenateAudioBuffers
  rw [foldl_add_length bufs 0, Nat.zero_add]
  exact h

/-- C10: the two implementations of concatenateAudioBuffers, the one in
src/services/aiService.ts building into a pre-allocated ArrayBuffer through
a typed-array view and the one in src/unnamed/part_000 building a typed
array and returning its underlying buffer, produce identical byte
sequences, namely the in-order concatenation of the input buffers. -/
theorem concatenateAudioBuffers_agree (buffers : List AudioBuffer) :
    AiServiceTs.concatenateAudioBuffers buffers = concatenateAudioBuffers buffers
    ∧ concatenateAudioBuffers buffers = buffers.flatten := by
  have h2 : concatenateAudioBuffers buffers = buffers.flatten :=
    concatenateAudioBuffers_eq_flatten buffers
  have h1 : AiServiceTs.concatenateAudioBuffers buffers
      = concatenateAudioBuffers buffers := rfl
  exact ⟨h1, h2⟩

/-- C4: with the synthesis credential absent, generateAudioWithElevenLabs
issues no synthesis request and returns the fixed placeholder audio URL
with a status message containing the simulated API-key-missing phrase, for
every line list, every URL maker and every fetch oracle. -/
theorem generateAudio_missing_key (mkUrl : AudioBuffer → String)
    (fetch : String → String → Except String AudioBuffer)
    (scriptLines : List ScriptLine) :
    generateAudioWithElevenLabs none mkUrl fetch scriptLines
        = ⟨⟨PLACEHOLDER_AUDIO_URL, simulatedMessage⟩, [], none⟩
    ∧ containsL simulatedMessage.toList
        ("simulated (API key missing)".toList) = true :=
  ⟨rfl, by decide⟩

/-- C6: whenever an audio URL exists in the state, any invocation of the
script-line edit handler leaves the state with an empty audio URL and the
dirty flag set, whatever the index, text and speaker arguments are. -/
theorem handleUpdate_clears_audio (s : AppState) (index : Int)
    (newText : String) (newSpeaker : Option String) (_h : s.audioUrl ≠ "") :
    (handleUpdateScriptLine s index newText newSpeaker).audioUrl = ""
    ∧ (handleUpdateScriptLine s index newText newSpeaker).isScriptDirty = true :=
  ⟨rfl, rfl⟩

/-- C6 witness at a concrete state holding an audio URL. -/
theorem handleUpdate_clears_audio_witness :
    (⟨[⟨"Person A", "Hi"⟩], "blob:old", "ok", false⟩ : AppState).audioUrl ≠ ""
    ∧ ((handleUpdateScriptLine ⟨[⟨"Person A", "Hi"⟩], "blob:old", "ok", false⟩
          0 "Hi" none).audioUrl = ""
        ∧ (handleUpdateScriptLine ⟨[⟨"Person A", "Hi"⟩], "blob:old", "ok", false⟩
            0 "Hi" none).isScriptDirty = true) :=
  ⟨by decide,
    handleUpdate_clears_audio ⟨[⟨"Person A", "Hi"⟩], "blob:old", "ok", false⟩
      0 "Hi" none (by decide)⟩

/-- C9: an edit at an index outside the bounds of the current line list,
negative or too large, leaves the script lines unchanged while still
clearing the audio URL and setting the dirty flag. -/
theorem handleUpdate_out_of_bounds (s : AppState) (index : Int)
    (newText : String) (newSpeaker : Option String)
    (h : index < 0 ∨ (s.scriptLines.length : Int) ≤ index) :
    (handleUpdateScriptLine s index newText newSpeaker).scriptLines
        = s.scriptLines
    ∧ (handleUpdateScriptLine s index newText newSpeaker).audioUrl = ""
    ∧ (handleUpdateScriptLine s index newText newSpeaker).isScriptDirty
        = true := by
  refine ⟨?_, rfl, rfl⟩
  have hcond : ¬(0 ≤ index ∧ index.toNat < s.scriptLines.length) := by omega
  simp only [handleUpdateScriptLine, updateLineAt, dif_neg hcond]

/-- C9 witness at a concrete state and the out-of-bounds index five. -/
theorem handleUpdate_out_of_bounds_witness :
    ((5 : Int) < 0
      ∨ (((⟨[⟨"Person A", "Hi"⟩], "blob:old", "ok", false⟩ :
            AppState).scriptLines.length : Int) ≤ 5))
    ∧ ((handleUpdateScriptLine ⟨[⟨"Person A", "Hi"⟩], "blob:old", "ok", false⟩
          5 "new" none).scriptLines
          = (⟨[⟨"Person A", "Hi"⟩], "blob:old", "ok", false⟩ :
              AppState).scriptLines
        ∧ (handleUpdateScriptLine ⟨[⟨"Person A", "Hi"⟩], "blob:old", "ok", false⟩
            5 "new" none).audioUrl = ""
        ∧ (handleUpdateScriptLine ⟨[⟨"Person A", "Hi"⟩], "blob:old", "ok", false⟩
            5 "new" none).isScriptDirty = true) :=
  ⟨by decide,
    handleUpdate_out_of_bounds ⟨[⟨"Person A", "Hi"⟩], "blob:old", "ok", false⟩
      5 "new" none (by decide)⟩

/-- Concrete object-URL maker used by witnesses and counterexamples. -/
def mkUrl0 : AudioBuffer → String := fun _ => "blob:demo"

/-- Concrete always-succeeding fetch oracle used by witnesses. -/
def fetch0 : String → String → Except String AudioBuffer := fun _ _ => .ok [7]

/-- Per-line buffer associated with fetch0. -/
def bufOf0 : ScriptLine → AudioBuffer := fun _ => [7]

/-- C7 counterexample: the synthesizer processes a line whose speaker label
does not contain the first-speaker marker person a, case-insensitively,
yet selects the first voice identifier, because the label contains the
second disjunct of the code, a space, the letter a and a colon. -/
theorem voiceIdFor_counterexample :
    (generateAudioWithElevenLabs (some "key") mkUrl0 fetch0
        [⟨"Dr a:", "hi"⟩]).requests = [⟨"hi", VOICE_ID_PERSON_A⟩]
    ∧ containsL (jsLower "Dr a:") ("person a".toList) = false := by
  exact ⟨rfl, by decide⟩

/-- C7 amended: the first voice identifier is selected exactly when the
lowercased speaker label contains person a or the space-a-colon marker,
and otherwise the second voice identifier is selected. -/
theorem voiceIdFor_amended (speaker : String) :
    (voiceIdFor speaker = VOICE_ID_PERSON_A
      ↔ (containsL (jsLower speaker) ("person a".toList)
          || containsL (jsLower speaker) (" a:".toList)) = true)
    ∧ (voiceIdFor speaker = VOICE_ID_PERSON_A
        ∨ voiceIdFor speaker = VOICE_ID_PERSON_B) := by
  unfold voiceIdFor
  by_cases hb : (containsL (jsLower speaker) ("person a".toList)
      || containsL (jsLower speaker) (" a:".toList)) = true
  · rw [if_pos hb]
    exact ⟨⟨fun _ => hb, fun _ => rfl⟩, Or.inl rfl⟩
  · rw [if_neg hb]
    constructor
    · constructor
      · intro hBA
        exact absurd hBA.symm (by decide)
      · intro hb2
        exact absurd hb2 hb
    · exact Or.inr rfl

/-- C2: when every non-blank line of the raw text matches the speaker
pattern, parsing returns exactly one ScriptLine per non-blank line, in
input order, with each captured utterance trimmed; blank lines anywhere
contribute nothing, parsing being a function of the non-blank lines
alone. -/
theorem parseScriptText_wellformed (text : String)
    (h : ∀ l ∈ nonblankLines text, (matchSpeakerLine l).isSome) :
    parseScriptText text
        = (nonblankLines text).map (fun l => (parseOne l).getD ⟨"", ""⟩)
    ∧ (parseScriptText text).length = (nonblankLines text).length
    ∧ ∀ sl ∈ parseScriptText text, jsTrimL sl.text.toList = sl.text.toList := by
  have hps : ∀ l ∈ nonblankLines text, (parseOne l).isSome := by
    intro l hl
    have hsome := h l hl
    unfold parseOne
    cases hm : matchSpeakerLine l with
    | none => rw [hm] at hsome; exact absurd hsome (by simp)
    | some p => simp
  have hmap : parseScriptText text
      = (nonblankLines text).map (fun l => (parseOne l).getD ⟨"", ""⟩) :=
    filterMap_eq_map_getD parseOne ⟨"", ""⟩ (nonblankLines text) hps
  refine ⟨hmap, by rw [hmap, List.length_map], ?_⟩
  intro sl hsl
  rw [parseScriptText] at hsl
  obtain ⟨l, _, hpl⟩ := List.mem_filterMap.mp hsl
  unfold parseOne at hpl
  obtain ⟨p, _, hval⟩ := Option.map_eq_some'.mp hpl
  have htext : sl.text = String.mk (jsTrimL p.2) := by rw [← hval]
  rw [htext]
  exact jsTrimL_idem p.2

/-- Concrete raw text used by the parser witness. -/
def demoText : String := "Person A: Hi\n\nPerson b:  there  \n"

/-- C2 witness at a concrete raw text with blank and well-formed lines. -/
theorem parseScriptText_wellformed_witness :
    (∀ l ∈ nonblankLines demoText, (matchSpeakerLine l).isSome)
    ∧ (parseScriptText demoText
          = (nonblankLines demoText).map (fun l => (parseOne l).getD ⟨"", ""⟩)
        ∧ (parseScriptText demoText).length = (nonblankLines demoText).length
        ∧ ∀ sl ∈ parseScriptText demoText,
            jsTrimL sl.text.toList = sl.text.toList) :=
  ⟨by decide, parseScriptText_wellformed demoText (by decide)⟩

/-- C1: with the credential present, over a non-empty list of lines all
non-blank after trimming and with every request succeeding, the
synthesizer issues exactly one request per line in list order, and the
bytes behind the produced URL are the in-order concatenation of the
per-line buffers, whose length is the sum of the per-line lengths. -/
theorem generateAudio_all_nonblank (k : String) (mkUrl : AudioBuffer → String)
    (fetch : String → String → Except String AudioBuffer)
    (bufOf : ScriptLine → AudioBuffer) (lines : List ScriptLine)
    (hne : lines ≠ [])
    (hnb : ∀ l ∈ lines, jsTrimL l.text.toList ≠ [])
    (hok : ∀ l ∈ lines, fetch l.text (voiceIdFor l.speaker) = .ok (bufOf l)) :
    (generateAudioWithElevenLabs (some k) mkUrl fetch lines).requests
        = lines.map (fun l => ⟨l.text, voiceIdFor l.speaker⟩)
    ∧ (generateAudioWithElevenLabs (some k) mkUrl fetch lines).requests.length
        = lines.length
    ∧ (generateAudioWithElevenLabs (some k) mkUrl fetch lines).audioBytes
        = some ((lines.map bufOf).flatten)
    ∧ ((lines.map bufOf).flatten).length
        = (lines.map (fun l => (bufOf l).length)).sum := by
  have hfilter : lines.filter (fun l => !(jsTrimL l.text.toList).isEmpty)
      = lines :=
    List.filter_eq_self.mpr (fun a ha => by simpa using hnb a ha)
  have hrun := runSegments_ok_filter fetch bufOf lines (fun l hl _ => hok l hl)
  rw [hfilter] at hrun
  have hlen0 : ¬lines.length = 0 := by
    simpa [List.length_eq_zero] using hne
  have hseg0 : ¬(lines.map bufOf).length = 0 := by
    simpa using hlen0
  have hout : generateAudioWithElevenLabs (some k) mkUrl fetch lines
      = ⟨⟨mkUrl ((lines.map bufOf).flatten),
          successMessage (lines.map bufOf).length⟩,
        lines.map (fun l => ⟨l.text, voiceIdFor l.speaker⟩),
        some ((lines.map bufOf).flatten)⟩ := by
    simp only [generateAudioWithElevenLabs, hrun, if_neg hlen0, if_neg hseg0,
      concatenateAudioBuffers_eq_flatten]
  rw [hout]
  refine ⟨rfl, by simp, rfl, ?_⟩
  rw [List.length_flatten, List.map_map]
  rfl

/-- Concrete all-non-blank line list used by witnesses. -/
def demoLinesAll : List ScriptLine := [⟨"Person A", "Hi"⟩, ⟨"Person B", "Yo"⟩]

/-- C1 witness at two concrete non-blank lines and a concrete oracle. -/
theorem generateAudio_all_nonblank_witness :
    demoLinesAll ≠ []
    ∧ (∀ l ∈ demoLinesAll, jsTrimL l.text.toList ≠ [])
    ∧ (∀ l ∈ demoLinesAll,
        fetch0 l.text (voiceIdFor l.speaker) = .ok (bufOf0 l))
    ∧ ((generateAudioWithElevenLabs (some "key") mkUrl0 fetch0
            demoLinesAll).requests
          = demoLinesAll.map (fun l => ⟨l.text, voiceIdFor l.speaker⟩)
        ∧ (generateAudioWithElevenLabs (some "key") mkUrl0 fetch0
            demoLinesAll).requests.length = demoLinesAll.length
        ∧ (generateAudioWithElevenLabs (some "key") mkUrl0 fetch0
            demoLinesAll).audioBytes
          = some ((demoLinesAll.map bufOf0).flatten)
        ∧ ((demoLinesAll.map bufOf0).flatten).length
          = (demoLinesAll.map (fun l => (bufOf0 l).length)).sum) :=
  ⟨by decide, by decide, fun l _ => rfl,
    generateAudio_all_nonblank "key" mkUrl0 fetch0 bufOf0 demoLinesAll
      (by decide) (by decide) (fun l _ => rfl)⟩

/-- C3: with the credential present and every issued request succeeding,
the synthesizer requests exactly the lines that are non-blank after
trimming, in order; and over a non-empty list whose lines are all blank it
returns an empty URL with the no-audio status, having issued no request
and produced no audio bytes. -/
theorem generateAudio_skip_blank (k : String) (mkUrl : AudioBuffer → String)
    (fetch : String → String → Except String AudioBuffer)
    (bufOf : ScriptLine → AudioBuffer) (lines : List ScriptLine)
    (hok : ∀ l ∈ lines, jsTrimL l.text.toList ≠ [] →
      fetch l.text (voiceIdFor l.speaker) = .ok (bufOf l)) :
    (generateAudioWithElevenLabs (some k) mkUrl fetch lines).requests
        = (lines.filter fun l => !(jsTrimL l.text.toList).isEmpty).map
            (fun l => ⟨l.text, voiceIdFor l.speaker⟩)
    ∧ (lines ≠ [] → (∀ l ∈ lines, jsTrimL l.text.toList = []) →
        generateAudioWithElevenLabs (some k) mkUrl fetch lines
          = ⟨⟨"", noAudioMessage⟩, [], none⟩) := by
  have hrun := runSegments_ok_filter fetch bufOf lines hok
  constructor
  · by_cases hemp : lines.length = 0
    · have hnil : lines = [] := List.length_eq_zero.mp hemp
      subst hnil
      rfl
    · simp only [generateAudioWithElevenLabs, hrun, if_neg hemp]
      by_cases hseg : ((lines.filter fun l =>
          !(jsTrimL l.text.toList).isEmpty).map bufOf).length = 0
      · rw [if_pos hseg]
      · rw [if_neg hseg]
  · intro hne hall
    have hfilter : lines.filter (fun l => !(jsTrimL l.text.toList).isEmpty)
        = [] :=
      List.filter_eq_nil_iff.mpr (fun a ha => by simpa using hall a ha)
    rw [hfilter] at hrun
    have hlen0 : ¬lines.length = 0 := by
      simpa [List.length_eq_zero] using hne
    simp only [generateAudioWithElevenLabs, hrun, if_neg hlen0]
    rfl

/-- Concrete mixed line list, one non-blank line and one blank line. -/
def demoLinesMixed : List ScriptLine :=
  [⟨"Person A", "Hi"⟩, ⟨"Person B", "  "⟩]

/-- Concrete all-blank non-empty line list. -/
def demoLinesBlank : List ScriptLine := [⟨"Person A", " "⟩]

/-- C3 witness at a concrete mixed list and a concrete all-blank list. -/
theorem generateAudio_skip_blank_witness :
    ((generateAudioWithElevenLabs (some "key") mkUrl0 fetch0
          demoLinesMixed).requests
        = (demoLinesMixed.filter fun l => !(jsTrimL l.text.toList).isEmpty).map
            (fun l => ⟨l.text, voiceIdFor l.speaker⟩))
    ∧ (generateAudioWithElevenLabs (some "key") mkUrl0 fetch0 demoLinesBlank
        = ⟨⟨"", noAudioMessage⟩, [], none⟩) :=
  ⟨(generateAudio_skip_blank "key" mkUrl0 fetch0 bufOf0 demoLinesMixed
      (fun l _ _ => rfl)).1,
    (generateAudio_skip_blank "key" mkUrl0 fetch0 bufOf0 demoLinesBlank
      (fun l _ _ => rfl)).2 (by decide) (by decide)⟩

/-- C5: when the request for one non-blank line fails while every earlier
issued request succeeded, the synthesizer issues no request for the later
lines, returns the fixed placeholder URL with the causing error in the
status message, and exposes no audio bytes, discarding the buffers already
fetched. -/
theorem generateAudio_abort_on_failure (k : String)
    (mkUrl : AudioBuffer → String)
    (fetch : String → String → Except String AudioBuffer)
    (bufOf : ScriptLine → AudioBuffer)
    (pre : List ScriptLine) (bad : ScriptLine) (post : List ScriptLine)
    (e : String)
    (hpre : ∀ l ∈ pre, jsTrimL l.text.toList ≠ [] →
      fetch l.text (voiceIdFor l.speaker) = .ok (bufOf l))
    (hbadnb : jsTrimL bad.text.toList ≠ [])
    (hbad : fetch bad.text (voiceIdFor bad.speaker) = .error e) :
    generateAudioWithElevenLabs (some k) mkUrl fetch (pre ++ bad :: post)
      = ⟨⟨PLACEHOLDER_AUDIO_URL, failureMessage e⟩,
          (pre.filter fun l => !(jsTrimL l.text.toList).isEmpty).map
              (fun l => ⟨l.text, voiceIdFor l.speaker⟩)
            ++ [⟨bad.text, voiceIdFor bad.speaker⟩],
          none⟩ := by
  have hrun := runSegments_fails fetch bufOf bad e post pre hpre hbadnb hbad
  have hlen0 : ¬(pre ++ bad :: post).length = 0 := by simp
  simp only [generateAudioWithElevenLabs, hrun, if_neg hlen0]

/-- Concrete fetch oracle that fails on the utterance Boom. -/
def fetchFail0 : String → String → Except String AudioBuffer :=
  fun t _ => if t = "Boom" then .error "HTTP 500" else .ok [7]

/-- C5 witness at a concrete three-line list whose middle request fails. -/
theorem generateAudio_abort_on_failure_witness :
    jsTrimL ("Boom".toList) ≠ []
    ∧ fetchFail0 "Boom" (voiceIdFor "Person B") = .error "HTTP 500"
    ∧ generateAudioWithElevenLabs (some "key") mkUrl0 fetchFail0
        ([⟨"Person A", "Hi"⟩] ++ ⟨"Person B", "Boom"⟩ ::
          [⟨"Person A", "Later"⟩])
      = ⟨⟨PLACEHOLDER_AUDIO_URL, failureMessage "HTTP 500"⟩,
          (([⟨"Person A", "Hi"⟩] : List ScriptLine).filter
              (fun l => !(jsTrimL l.text.toList).isEmpty)).map
              (fun l => ⟨l.text, voiceIdFor l.speaker⟩)
            ++ [⟨"Boom", voiceIdFor "Person B"⟩],
          none⟩ := by
  refine ⟨by decide, rfl, ?_⟩
  exact generateAudio_abort_on_failure "key" mkUrl0 fetchFail0 bufOf0
    [⟨"Person A", "Hi"⟩] ⟨"Person B", "Boom"⟩ [⟨"Person A", "Later"⟩]
    "HTTP 500"
    (by
      intro l hl _
      have hx := List.mem_singleton.mp hl
      subst hx
      rfl)
    (by decide) rfl

/-- C8: the script requester either returns text that is non-empty after
trimming or fails: it fails without a network call when the generation
credential is missing, and it fails whenever the response text is absent,
empty or whitespace-only. -/
theorem generateScript_contract (geminiKey : Option String) (topic : String)
    (api : String → Except String (Option String)) :
    (∀ t, (generateScript geminiKey topic api).1 = .ok t →
        jsTrimL t.toList ≠ [])
    ∧ (geminiKey = none →
        generateScript geminiKey topic api
          = (.error geminiMissingMessage, false))
    ∧ (api topic = .ok none →
        ∃ e, (generateScript geminiKey topic api).1 = .error e)
    ∧ (∀ t, api topic = .ok (some t) → jsTrimL t.toList = [] →
        ∃ e, (generateScript geminiKey topic api).1 = .error e) := by
  cases geminiKey with
  | none =>
    refine ⟨?_, fun _ => rfl, fun _ => ⟨geminiMissingMessage, rfl⟩,
      fun t _ _ => ⟨geminiMissingMessage, rfl⟩⟩
    intro t ht
    simp [generateScript] at ht
  | some kk =>
    cases hapi : api topic with
    | error e =>
      refine ⟨?_, by intro hc; simp at hc, ?_, ?_⟩
      · intro t ht
        simp [generateScript, hapi] at ht
      · intro hn
        simp at hn
      · intro t hn
        simp at hn
    | ok o =>
      cases o with
      | none =>
        refine ⟨?_, by intro hc; simp at hc, ?_, ?_⟩
        · intro t ht
          simp [generateScript, hapi] at ht
        · intro _
          exact ⟨emptyScriptMessage, by simp [generateScript, hapi]⟩
        · intro t hn
          simp at hn
      | some t0 =>
        refine ⟨?_, by intro hc; simp at hc, ?_, ?_⟩
        · intro t ht
          by_cases h0 : jsTrimL t0.toList = []
          · have h0d : jsTrimL t0.data = [] := h0
            simp [generateScript, hapi, h0d] at ht
          · have h0d : ¬jsTrimL t0.data = [] := h0
            simp [generateScript, hapi, h0d] at ht
            rw [← ht]
            exact h0
        · intro hn
          simp at hn
        · intro t hn htr
          have ht0 : t0 = t := by simpa using hn
          subst ht0
          have htr2 : jsTrimL t0.data = [] := htr
          exact ⟨emptyScriptMessage, by simp [generateScript, hapi, htr2]⟩

/-- Concrete generate-content oracle used by the script witness. -/
def apiDemo : String → Except String (Option String) :=
  fun _ => .ok (some "Person A: Hi")

/-- C8 witness instantiating the contract at a concrete key, topic and
oracle. -/
theorem generateScript_contract_witness :
    (∀ t, (generateScript (some "key") "gravity" apiDemo).1 = .ok t →
        jsTrimL t.toList ≠ [])
    ∧ ((some "key" : Option String) = none →
        generateScript (some "key") "gravity" apiDemo
          = (.error geminiMissingMessage, false))
    ∧ (apiDemo "gravity" = .ok none →
        ∃ e, (generateScript (some "key") "gravity" apiDemo).1 = .error e)
    ∧ (∀ t, apiDemo "gravity" = .ok (some t) → jsTrimL t.toList = [] →
        ∃ e, (generateScript (some "key") "gravity" apiDemo).1 = .error e) :=
  generateScript_contract (some "key") "gravity" apiDemo
